import Mathlib

/-!
Shallow embedding of the Round Analytics Engine of the `mines-tracker`
repository (`src/backend/api/main.py`, `src/backend/api/game_stats.py`),
together with theorems settling the behavioural claims about it.

Real-valued arithmetic of the source is embedded as exact rational
arithmetic (`ℚ`); Python's `round(x, n)` (round half to even) is embedded
by `roundTo n`.  Python `dict` literals keyed by consecutive integers are
embedded as association lists in key order; `dict` lookups that can fail
are modelled explicitly where they can actually fail (`Except`).
-/

unseal Rat.mul Rat.add Rat.sub Rat.inv Rat.ofScientific String.mapAux

namespace MinesTracker

/-- Python `round` to an integer: round half to even, on rationals. -/
def rdInt (q : ℚ) : ℤ :=
  if q - ⌊q⌋ < 1/2 then ⌊q⌋
  else if 1/2 < q - ⌊q⌋ then ⌊q⌋ + 1
  else if ⌊q⌋ % 2 = 0 then ⌊q⌋ else ⌊q⌋ + 1

/-- Python `round(q, n)`: round to `n` decimal places, half to even. -/
def roundTo (n : ℕ) (q : ℚ) : ℚ := (rdInt (q * 10 ^ n) : ℚ) / 10 ^ n

/-- `round(q, 2)` of the source. -/
def round2 (q : ℚ) : ℚ := roundTo 2 q

/-- `round(q, 4)` of the source. -/
def round4 (q : ℚ) : ℚ := roundTo 4 q

/-- `statistics.mean` on rationals (callers guard against empty input). -/
def mean (l : List ℚ) : ℚ := l.sum / l.length

/-- `statistics.median` on rationals: middle element of the sorted list,
or the average of the two middle elements for even length. -/
def median (l : List ℚ) : ℚ :=
  let s := l.insertionSort (· ≤ ·)
  let n := s.length
  if n = 0 then 0
  else if n % 2 = 1 then s.getD (n / 2) 0
  else (s.getD (n / 2 - 1) 0 + s.getD (n / 2) 0) / 2

/-! ### Payout Table Generator (`get_payout_table` in `main.py`) -/

/-- Output row of `GET /api/payout-table` (`PayoutInfo` in `main.py`):
safe reveals `gems`, payout `multiplier`, `probability` as a percentage. -/
structure PayoutInfo where
  gems : ℕ
  multiplier : ℚ
  probability : ℚ
  deriving DecidableEq

/-- Exact probability of revealing `gems` safe cells in the 25-cell grid
with `gemsCount` safe cells: the falling-factorial product
`∏ i < gems, (gemsCount - i) / (25 - i)` computed by the inner loop of
`get_payout_table`. -/
def revealProb (gemsCount : ℤ) (gems : ℕ) : ℚ :=
  (List.range gems).foldl
    (fun prob i => prob * (((gemsCount - i : ℤ) : ℚ) / ((25 - (i : ℤ) : ℤ) : ℚ))) 1

/-- One row of `get_payout_table` for safe-reveal count `gems`
(RTP fixed at 0.97). -/
def payoutRow (gemsCount : ℤ) (gems : ℕ) : PayoutInfo :=
  let prob := revealProb gemsCount gems
  { gems := gems
    multiplier := round2 ((97 : ℚ) / 100 / prob)
    probability := round2 (prob * 100) }

/-- All rows of the payout table for a valid `mines` count, in order of
increasing `gems = 1 .. 25 - mines`. -/
def tableRows (mines : ℤ) : List PayoutInfo :=
  (List.range (25 - mines).toNat).map (fun g => payoutRow (25 - mines) (g + 1))

/-- `get_payout_table` from `main.py`: validates `1 ≤ mines ≤ 24`, then
returns one row per `gems = 1 .. 25 - mines`; out-of-range input raises
`ValueError` (embedded as `Except.error` carrying the message). -/
def get_payout_table (mines : ℤ) : Except String (List PayoutInfo) :=
  if mines < 1 ∨ mines > 24 then
    .error "Mines count must be between 1 and 24"
  else
    .ok (tableRows mines)

/-! ### Round records (`game_stats.py`) -/

/-- A round record as consumed by `GridGameCalculator`: a Python dict
whose fields may each be absent (`none`).  Numeric step counts are
integers, multipliers are rationals. -/
structure Round where
  tiles_opened : Option ℤ := none
  steps : Option ℤ := none
  multiplier : Option ℚ := none
  is_win : Option Bool := none
  cashout : Option Bool := none
  risk_level : Option String := none
  mine_positions : List ℤ := []
  floor_reached : Option ℤ := none
  choices : List String := []
  choice_results : List Bool := []
  lanes_crossed : Option ℤ := none
  distance : Option ℤ := none
  deriving DecidableEq

/-- `r.get('tiles_opened', r.get('steps', 0))`. -/
def Round.tiles (r : Round) : ℤ := r.tiles_opened.getD (r.steps.getD 0)

/-- `r.get('multiplier', 1.0)`. -/
def Round.mult (r : Round) : ℚ := r.multiplier.getD 1

/-- `r.get('is_win', r.get('cashout', False))` (tile analysis). -/
def Round.isWinTA (r : Round) : Bool := r.is_win.getD (r.cashout.getD false)

/-- `d.get('is_win', False)` (risk-level analysis). -/
def Round.isWinRisk (r : Round) : Bool := r.is_win.getD false

/-- `r.get('risk_level', 'medium').lower()`. -/
def Round.riskLabel (r : Round) : String := (r.risk_level.getD "medium").toLower

/-- `r.get('floor_reached', r.get('steps', 0))`. -/
def Round.floorReached (r : Round) : ℤ := r.floor_reached.getD (r.steps.getD 0)

/-- `r.get('lanes_crossed', r.get('distance', 0))`. -/
def Round.laneDistance (r : Round) : ℤ := r.lanes_crossed.getD (r.distance.getD 0)

/-! ### Tile/step analysis (`GridGameCalculator.analyze_tiles`) -/

/-- Result object of `analyze_tiles` (`TileAnalysis` in `game_stats.py`). -/
structure TileAnalysis where
  total_rounds : ℕ
  avg_tiles_opened : ℚ
  avg_multiplier : ℚ
  median_tiles : ℚ
  max_tiles_opened : ℤ
  early_cashout_rate : ℚ
  mid_cashout_rate : ℚ
  late_cashout_rate : ℚ
  first_tile_fail_rate : ℚ
  avg_tiles_before_fail : ℚ
  deriving DecidableEq

/-- The `tiles` list of `analyze_tiles`. -/
def tilesOf (rounds : List Round) : List ℤ := rounds.map (·.tiles)

/-- The `is_win` list of `analyze_tiles`. -/
def winFlags (rounds : List Round) : List Bool := rounds.map (·.isWinTA)

/-- The `wins` list of `analyze_tiles`: tile counts of winning rounds. -/
def winTiles (rounds : List Round) : List ℤ :=
  (((tilesOf rounds).zip (winFlags rounds)).filter (·.2)).map (·.1)

/-- The `fails` list of `analyze_tiles`: tile counts of failed rounds. -/
def failTiles (rounds : List Round) : List ℤ :=
  (((tilesOf rounds).zip (winFlags rounds)).filter (fun p => !p.2)).map (·.1)

/-- `GridGameCalculator.analyze_tiles`. -/
def analyze_tiles (rounds : List Round) : TileAnalysis :=
  if rounds.isEmpty then
    { total_rounds := 0, avg_tiles_opened := 0, avg_multiplier := 0
      median_tiles := 0, max_tiles_opened := 0, early_cashout_rate := 0
      mid_cashout_rate := 0, late_cashout_rate := 0
      first_tile_fail_rate := 0, avg_tiles_before_fail := 0 }
  else
    let n := rounds.length
    let tiles := tilesOf rounds
    let multipliers := rounds.map (·.mult)
    let avg_tiles := if tiles.isEmpty then 0 else mean (tiles.map (fun t => (t : ℚ)))
    let avg_mult := if multipliers.isEmpty then 0 else mean multipliers
    let med_tiles := if tiles.isEmpty then 0 else median (tiles.map (fun t => (t : ℚ)))
    let max_tiles := (tiles.max?).getD 0
    let wins := winTiles rounds
    let early := if wins.isEmpty then 0 else
      ((wins.countP (fun t => decide (t ≤ 3)) : ℚ) / wins.length) * 100
    let mid := if wins.isEmpty then 0 else
      ((wins.countP (fun t => decide (4 ≤ t) && decide (t ≤ 7)) : ℚ) / wins.length) * 100
    let late := if wins.isEmpty then 0 else
      ((wins.countP (fun t => decide (8 ≤ t)) : ℚ) / wins.length) * 100
    let fails := failTiles rounds
    let first_fail := if fails.isEmpty then 0 else
      ((fails.countP (fun t => decide (t = 1)) : ℚ) / fails.length) * 100
    let avg_fail_tiles := if fails.isEmpty then 0 else mean (fails.map (fun t => (t : ℚ)))
    { total_rounds := n
      avg_tiles_opened := round2 avg_tiles
      avg_multiplier := round4 avg_mult
      median_tiles := round2 med_tiles
      max_tiles_opened := max_tiles
      early_cashout_rate := round2 early
      mid_cashout_rate := round2 mid
      late_cashout_rate := round2 late
      first_tile_fail_rate := round2 first_fail
      avg_tiles_before_fail := round2 avg_fail_tiles }

/-! ### Risk-level comparison (`GridGameCalculator.analyze_risk_levels`) -/

/-- Result object for one risk bucket (`RiskLevelStats`). -/
structure RiskLevelStats where
  risk_level : String
  total_rounds : ℕ
  avg_multiplier : ℚ
  success_rate : ℚ
  big_win_rate : ℚ
  avg_tiles_opened : ℚ
  theoretical_rtp : ℚ
  deriving DecidableEq

/-- Keys of the `risk_data` dict, in insertion order. -/
def riskLabels : List String := ["easy", "medium", "hard", "extreme"]

/-- `theoretical_rtps.get(level, 97.0)`. -/
def theoreticalRtp (level : String) : ℚ :=
  if level = "easy" then 98
  else if level = "medium" then 97
  else if level = "hard" then 96
  else if level = "extreme" then 95
  else 97

/-- The rounds collected in the `risk_data` bucket keyed `level`
(appended in input order). -/
def bucket (rounds : List Round) (level : String) : List Round :=
  rounds.filter (fun r => r.riskLabel == level)

/-- The `RiskLevelStats` record built for a non-empty bucket. -/
def riskStats (level : String) (data : List Round) : RiskLevelStats :=
  let multipliers := data.map (·.mult)
  let tiles := data.map (·.tiles)
  let wins := data.filter (·.isWinRisk)
  { risk_level := level
    total_rounds := data.length
    avg_multiplier := if multipliers.isEmpty then 0 else round4 (mean multipliers)
    success_rate := if data.isEmpty then 0 else
      round2 (((wins.length : ℚ) / data.length) * 100)
    big_win_rate := if multipliers.isEmpty then 0 else
      round2 (((multipliers.countP (fun m => decide (5 ≤ m)) : ℚ) / multipliers.length) * 100)
    avg_tiles_opened := if tiles.isEmpty then 0 else round2 (mean (tiles.map (fun t => (t : ℚ))))
    theoretical_rtp := theoreticalRtp level }

/-- `GridGameCalculator.analyze_risk_levels`: one stats record per
non-empty canonical bucket, in `riskLabels` order. -/
def analyze_risk_levels (rounds : List Round) : List RiskLevelStats :=
  riskLabels.filterMap (fun level =>
    let data := bucket rounds level
    if data.isEmpty then none else some (riskStats level data))

/-! ### Position heatmap (`GridGameCalculator.analyze_mine_positions`) -/

/-- Result object of `analyze_mine_positions` (`PositionHeatmap`); the
`position_frequency` dict is embedded as an association list in key
order `0 .. grid_size - 1`. -/
structure PositionHeatmap where
  grid_size : ℕ
  mine_count_analyzed : ℕ
  corner_mine_rate : ℚ
  edge_mine_rate : ℚ
  center_mine_rate : ℚ
  position_frequency : List (ℕ × ℚ)
  safest_positions : List ℕ
  riskiest_positions : List ℕ
  deriving DecidableEq

/-- All hazard positions pooled across the rounds, in iteration order. -/
def allMines (rounds : List Round) : List ℤ :=
  rounds.flatMap (·.mine_positions)

/-- Occurrences of cell `i` in the pooled hazard positions
(`position_counts[i]` for an in-grid cell `i`). -/
def posCount (rounds : List Round) (i : ℕ) : ℕ :=
  (allMines rounds).countP (fun p => p == (i : ℤ))

/-- The in-grid guard `0 <= pos < grid_size` of the counting loop. -/
def inGrid (G : ℕ) (p : ℤ) : Bool := decide (0 ≤ p) && decide (p < (G : ℤ))

/-- `total_mines`: pooled hazard occurrences that passed the in-grid
guard. -/
def totalMines (rounds : List Round) (G : ℕ) : ℕ :=
  (allMines rounds).countP (inGrid G)

/-- Corner cells of the fixed 5×5 layout. -/
def cornerCells : List ℕ := [0, 4, 20, 24]

/-- Edge (non-corner border) cells of the fixed 5×5 layout. -/
def edgeCells : List ℕ := [1, 2, 3, 5, 9, 10, 14, 15, 19, 21, 22, 23]

/-- Center cells of the fixed 5×5 layout. -/
def centerCells : List ℕ := [6, 7, 8, 11, 12, 13, 16, 17, 18]

/-- The `sorted_positions` list of `analyze_mine_positions`: cell/count
pairs stably sorted by ascending count. -/
def sortedPositions (rounds : List Round) (grid_size : ℕ) : List (ℕ × ℕ) :=
  ((List.range grid_size).map (fun i => (i, posCount rounds i))).insertionSort
    (fun x y => x.2 ≤ y.2)

/-- `GridGameCalculator.analyze_mine_positions`.  The category rates read
`position_counts[p]` for every `p` in the fixed 5×5 cell lists; when
`grid_size < 25` and at least one hazard was counted, that dict access
raises `KeyError` (embedded as `Except.error`). -/
def analyze_mine_positions (rounds : List Round) (grid_size : ℕ := 25) :
    Except String PositionHeatmap :=
  if 0 < totalMines rounds grid_size ∧ grid_size < 25 then
    .error "KeyError"
  else
    .ok
    { grid_size := grid_size
      mine_count_analyzed := totalMines rounds grid_size
      corner_mine_rate := if 0 < totalMines rounds grid_size then
        round2 ((((cornerCells.map (posCount rounds)).sum : ℚ) /
          totalMines rounds grid_size) * 100) else 0
      edge_mine_rate := if 0 < totalMines rounds grid_size then
        round2 ((((edgeCells.map (posCount rounds)).sum : ℚ) /
          totalMines rounds grid_size) * 100) else 0
      center_mine_rate := if 0 < totalMines rounds grid_size then
        round2 ((((centerCells.map (posCount rounds)).sum : ℚ) /
          totalMines rounds grid_size) * 100) else 0
      position_frequency := (List.range grid_size).map (fun i =>
        (i, if 0 < totalMines rounds grid_size then
          round2 (((posCount rounds i : ℚ) / totalMines rounds grid_size) * 100) else 0))
      safest_positions := ((sortedPositions rounds grid_size).take 5).map (·.1)
      riskiest_positions := ((sortedPositions rounds grid_size).drop
        ((sortedPositions rounds grid_size).length - 5)).map (·.1) }

/-! ### First-maximum / first-minimum selection

Python's `max(items, key=lambda x: x[1])` scans left to right and
replaces the current best only on a strict improvement, so it returns
the first item attaining the maximal value; `min` likewise. -/

/-- Left fold of Python `max(…, key=…)` starting from current best `b`. -/
def maxFrom (b : ℕ × ℚ) : List (ℕ × ℚ) → ℕ × ℚ
  | [] => b
  | x :: xs => maxFrom (if b.2 < x.2 then x else b) xs

/-- Python `max(items, key=lambda x: x[1])` (`none` on the empty list). -/
def pyMaxBy : List (ℕ × ℚ) → Option (ℕ × ℚ)
  | [] => none
  | x :: xs => some (maxFrom x xs)

/-- Left fold of Python `min(…, key=…)` starting from current best `b`. -/
def minFrom (b : ℕ × ℚ) : List (ℕ × ℚ) → ℕ × ℚ
  | [] => b
  | x :: xs => minFrom (if x.2 < b.2 then x else b) xs

/-- Python `min(items, key=lambda x: x[1])` (`none` on the empty list). -/
def pyMinBy : List (ℕ × ℚ) → Option (ℕ × ℚ)
  | [] => none
  | x :: xs => some (minFrom x xs)

/-! ### Towers floor analysis (`GridGameCalculator.analyze_towers_floors`) -/

/-- Result object of `analyze_towers_floors` (`TowersFloorAnalysis`);
integer-keyed dicts are embedded as association lists in key order. -/
structure TowersFloorAnalysis where
  total_rounds : ℕ
  max_floor_reached : ℤ
  avg_floor_reached : ℚ
  floor_success_rates : List (ℕ × ℚ)
  left_success_rate : ℚ
  middle_success_rate : ℚ
  right_success_rate : ℚ
  recommended_stop_floor : ℕ
  expected_value_per_floor : List (ℕ × ℚ)
  deriving DecidableEq

/-- Floors reached, one per round. -/
def floorsOf (rounds : List Round) : List ℤ := rounds.map (·.floorReached)

/-- `floor_rates[floor]`: percentage of rounds that reached at least
`floor`. -/
def floorRate (rounds : List Round) (floor : ℕ) : ℚ :=
  let floors := floorsOf rounds
  round2 (((floors.countP (fun f => decide ((floor : ℤ) ≤ f)) : ℚ) / floors.length) * 100)

/-- `floor_rates.get(floor, 0)`: the dict holds keys `1 .. max_floors`. -/
def floorRateD (rounds : List Round) (max_floors floor : ℕ) : ℚ :=
  if 1 ≤ floor ∧ floor ≤ max_floors then floorRate rounds floor else 0

/-- The expected-value loop of `analyze_towers_floors`: `n` remaining
iterations, current floor index, accumulated `base_mult` (multiplied by
1.5 before each use). -/
def evListAux (rates : ℕ → ℚ) : ℕ → ℕ → ℚ → List (ℕ × ℚ)
  | 0, _, _ => []
  | n + 1, floor, bm =>
    let bm2 := bm * (3/2)
    (floor, round4 ((rates floor / 100) * bm2)) :: evListAux rates n (floor + 1) bm2

/-- `ev_per_floor` as an association list over floors `1 .. max_floors`. -/
def evList (rates : ℕ → ℚ) (max_floors : ℕ) : List (ℕ × ℚ) :=
  evListAux rates max_floors 1 1

/-- Win rate among pooled `(choice, result)` pairs with the given label,
defaulting to 33.33 when the label never occurs. -/
def choiceRate (pairs : List (String × Bool)) (label : String) : ℚ :=
  let tot := pairs.countP (fun p => p.1 == label)
  let wins := pairs.countP (fun p => p.1 == label && p.2)
  if 0 < tot then round2 (((wins : ℚ) / tot) * 100) else round2 (3333/100)

/-- `GridGameCalculator.analyze_towers_floors`. -/
def analyze_towers_floors (rounds : List Round) (max_floors : ℕ := 10) :
    TowersFloorAnalysis :=
  if rounds.isEmpty then
    { total_rounds := 0, max_floor_reached := 0, avg_floor_reached := 0
      floor_success_rates := [], left_success_rate := 0
      middle_success_rate := 0, right_success_rate := 0
      recommended_stop_floor := 3, expected_value_per_floor := [] }
  else
    let floors := floorsOf rounds
    let avg_floor := mean (floors.map (fun f => (f : ℚ)))
    let max_floor := (floors.max?).getD 0
    let floor_rates : List (ℕ × ℚ) :=
      (List.range' 1 max_floors).map (fun floor => (floor, floorRate rounds floor))
    let all_choices := rounds.flatMap (·.choices)
    let all_results := rounds.flatMap (·.choice_results)
    let pairs := all_choices.zip all_results
    let ev_per_floor := evList (floorRateD rounds max_floors) max_floors
    let recommended := match pyMaxBy ev_per_floor with
      | some p => p.1
      | none => 3
    { total_rounds := rounds.length
      max_floor_reached := max_floor
      avg_floor_reached := round2 avg_floor
      floor_success_rates := floor_rates
      left_success_rate := choiceRate pairs "left"
      middle_success_rate := choiceRate pairs "middle"
      right_success_rate := choiceRate pairs "right"
      recommended_stop_floor := recommended
      expected_value_per_floor := ev_per_floor }

/-! ### Chicken Road lane analysis
(`GridGameCalculator.analyze_chicken_road_lanes`) -/

/-- Result object of `analyze_chicken_road_lanes`
(`ChickenRoadLaneAnalysis`). -/
structure ChickenRoadLaneAnalysis where
  total_rounds : ℕ
  avg_distance : ℚ
  max_distance : ℤ
  lane_success_rates : List (ℕ × ℚ)
  most_dangerous_lane : ℕ
  safest_lane : ℕ
  caught_early_rate : ℚ
  completed_rate : ℚ
  deriving DecidableEq

/-- Lanes crossed, one per round. -/
def distancesOf (rounds : List Round) : List ℤ := rounds.map (·.laneDistance)

/-- `lane_rates[lane]`: percentage of rounds whose distance is at least
`lane`. -/
def laneRate (rounds : List Round) (lane : ℕ) : ℚ :=
  let distances := distancesOf rounds
  round2 (((distances.countP (fun d => decide ((lane : ℤ) ≤ d)) : ℚ) / distances.length) * 100)

/-- `lane_rates.get(lane, 0)`: the dict holds keys `1 .. total_lanes`. -/
def laneRateD (rounds : List Round) (total_lanes lane : ℕ) : ℚ :=
  if 1 ≤ lane ∧ lane ≤ total_lanes then laneRate rounds lane else 0

/-- `danger_drops`: association list over lanes `2 .. total_lanes` of the
drop in success rate from the previous lane. -/
def dangerDrops (rounds : List Round) (total_lanes : ℕ) : List (ℕ × ℚ) :=
  (List.range' 2 (total_lanes - 1)).map (fun lane =>
    (lane, laneRateD rounds total_lanes (lane - 1) - laneRateD rounds total_lanes lane))

/-- `GridGameCalculator.analyze_chicken_road_lanes`. -/
def analyze_chicken_road_lanes (rounds : List Round) (total_lanes : ℕ := 10) :
    ChickenRoadLaneAnalysis :=
  if rounds.isEmpty then
    { total_rounds := 0, avg_distance := 0, max_distance := 0
      lane_success_rates := [], most_dangerous_lane := 1, safest_lane := 1
      caught_early_rate := 0, completed_rate := 0 }
  else
    let distances := distancesOf rounds
    let avg_dist := mean (distances.map (fun d => (d : ℚ)))
    let max_dist := (distances.max?).getD 0
    let lane_rates : List (ℕ × ℚ) :=
      (List.range' 1 total_lanes).map (fun lane => (lane, laneRate rounds lane))
    let drops := dangerDrops rounds total_lanes
    let most_dangerous := match pyMaxBy drops with
      | some p => p.1
      | none => 1
    let safest := match pyMinBy drops with
      | some p => p.1
      | none => 1
    let early_caught := ((distances.countP (fun d => decide (d ≤ 3)) : ℚ) / distances.length) * 100
    let completed := ((distances.countP (fun d => decide ((total_lanes : ℤ) ≤ d)) : ℚ) / distances.length) * 100
    { total_rounds := rounds.length
      avg_distance := round2 avg_dist
      max_distance := max_dist
      lane_success_rates := lane_rates
      most_dangerous_lane := most_dangerous
      safest_lane := safest
      caught_early_rate := round2 early_caught
      completed_rate := round2 completed }

/-! ### Views of the payout table used in the theorems -/

/-- The `probability` column of the payout table, in `gems` order. -/
def tableProbs (mines : ℤ) : List ℚ := (tableRows mines).map (·.probability)

/-- The `multiplier` column of the payout table, in `gems` order. -/
def tableMults (mines : ℤ) : List ℚ := (tableRows mines).map (·.multiplier)

/-- The exact (pre-rounding) reveal probabilities, in `gems` order. -/
def exactProbs (mines : ℤ) : List ℚ :=
  (List.range (25 - mines).toNat).map (fun g => revealProb (25 - mines) (g + 1))

/-- Boolean check that `rel` holds for every adjacent pair of a list. -/
def pairsHold (rel : ℚ → ℚ → Bool) : List ℚ → Bool
  | [] => true
  | [_] => true
  | a :: b :: rest => rel a b && pairsHold rel (b :: rest)

theorem pairsHold_iff_chain (R : ℚ → ℚ → Prop) [DecidableRel R] (l : List ℚ) :
    pairsHold (fun a b => decide (R a b)) l = true ↔ l.Chain' R := by
  match l with
  | [] => simp [pairsHold]
  | [a] => simp [pairsHold]
  | a :: b :: rest =>
    rw [pairsHold, List.chain'_cons, Bool.and_eq_true, decide_eq_true_iff,
      pairsHold_iff_chain R (b :: rest)]

end MinesTracker

namespace MinesTracker

/-! ### Claims about the payout table -/

/-- C1.  For hazard count 3, the payout-table entry for one safe reveal
has exact probability 22/25, reported probability 88.00 (percent), and
fair multiplier round(0.97/0.88, 2) = 1.10. -/
theorem payout_entry_mines3_gems1 :
    get_payout_table 3 = Except.ok (tableRows 3) ∧
    (tableRows 3).get? 0 = some { gems := 1, multiplier := 11/10, probability := 88 } ∧
    revealProb 22 1 = 22/25 := by
  refine ⟨rfl, by decide, by decide⟩

/-- C2, counterexample.  In the returned payout table for hazard count
18 the reported (2-decimal) probability column is NOT strictly
decreasing: the entries for 6 and 7 safe reveals both report 0.00. -/
theorem payout_probability_not_strictly_decreasing :
    get_payout_table 18 = Except.ok (tableRows 18) ∧
    (tableProbs 18).get? 5 = some 0 ∧ (tableProbs 18).get? 6 = some 0 ∧
    ¬ List.Chain' (· > ·) (tableProbs 18) := by
  refine ⟨rfl, by decide, by decide, ?_⟩
  rw [← pairsHold_iff_chain (· > ·) (tableProbs 18)]
  decide

set_option maxRecDepth 10000 in
theorem payout_monotonicity_all : ∀ n ∈ List.range 24,
    (pairsHold (fun a b => decide (a > b)) (exactProbs ((n : ℤ) + 1)) &&
     pairsHold (fun a b => decide (a ≥ b)) (tableProbs ((n : ℤ) + 1)) &&
     pairsHold (fun a b => decide (a < b)) (tableMults ((n : ℤ) + 1))) = true := by
  exact List.all_eq_true.mp (by decide)

/-- C2, amended.  For every hazard count `1 ≤ mines ≤ 24`: the exact
(pre-rounding) probability is strictly decreasing in the safe-reveal
count, the reported (2-decimal) probability is non-strictly decreasing,
and the reported multiplier is strictly increasing. -/
theorem payout_monotonicity_amended (mines : ℤ) (h1 : 1 ≤ mines) (h2 : mines ≤ 24) :
    List.Chain' (· > ·) (exactProbs mines) ∧
    List.Chain' (· ≥ ·) (tableProbs mines) ∧
    List.Chain' (· < ·) (tableMults mines) := by
  have hn : (mines - 1).toNat ∈ List.range 24 := List.mem_range.mpr (by omega)
  have h3 := payout_monotonicity_all _ hn
  have harg : (((mines - 1).toNat : ℤ)) + 1 = mines := by omega
  rw [harg] at h3
  simp only [Bool.and_eq_true] at h3
  exact ⟨(pairsHold_iff_chain (· > ·) _).mp h3.1.1,
    (pairsHold_iff_chain (· ≥ ·) _).mp h3.1.2,
    (pairsHold_iff_chain (· < ·) _).mp h3.2⟩

/-- Witness for the amended C2 theorem, at hazard count 3. -/
theorem payout_monotonicity_amended_witness :
    (1 : ℤ) ≤ 3 ∧ (3 : ℤ) ≤ 24 ∧
    (List.Chain' (· > ·) (exactProbs 3) ∧
     List.Chain' (· ≥ ·) (tableProbs 3) ∧
     List.Chain' (· < ·) (tableMults 3)) :=
  ⟨by decide, by decide, payout_monotonicity_amended 3 (by decide) (by decide)⟩

/-- C3.  Out-of-range hazard counts make `get_payout_table` signal the
invalid-parameter error with no rows produced; in-range hazard counts
produce exactly one row per safe-reveal count, with `gems = i + 1` at
index `i` and `25 - mines` rows in total. -/
theorem payout_validation (mines : ℤ) :
    ((mines < 1 ∨ 24 < mines) →
      get_payout_table mines = Except.error "Mines count must be between 1 and 24") ∧
    (1 ≤ mines → mines ≤ 24 →
      get_payout_table mines = Except.ok (tableRows mines) ∧
      ((tableRows mines).length : ℤ) = 25 - mines ∧
      ∀ i (h : i < (tableRows mines).length), ((tableRows mines).get ⟨i, h⟩).gems = i + 1) := by
  constructor
  · intro h
    unfold get_payout_table
    rw [if_pos h]
  · intro h1 h2
    have hcond : ¬ (mines < 1 ∨ mines > 24) := by omega
    refine ⟨by unfold get_payout_table; rw [if_neg hcond], ?_, ?_⟩
    · rw [tableRows, List.length_map, List.length_range, Int.toNat_of_nonneg (by omega)]
    · intro i h
      simp [tableRows, payoutRow]

/-- Witness for C3, at hazard counts 0 (rejected) and 3 (accepted). -/
theorem payout_validation_witness :
    get_payout_table 0 = Except.error "Mines count must be between 1 and 24" ∧
    get_payout_table 3 = Except.ok (tableRows 3) ∧
    ((tableRows 3).length : ℤ) = 25 - 3 ∧
    (∀ i (h : i < (tableRows 3).length), ((tableRows 3).get ⟨i, h⟩).gems = i + 1) :=
  ⟨(payout_validation 0).1 (Or.inl (by decide)),
   ((payout_validation 3).2 (by decide) (by decide)).1,
   ((payout_validation 3).2 (by decide) (by decide)).2.1,
   ((payout_validation 3).2 (by decide) (by decide)).2.2⟩

/-! ### Claims about the tile/step analysis -/

/-! ### Claims about the risk-level comparison -/

/-- The three-round example of the spec: easy win, easy loss, hard win. -/
def exampleRiskRounds : List Round :=
  [ { risk_level := some "easy", is_win := some true },
    { risk_level := some "easy", is_win := some false },
    { risk_level := some "hard", is_win := some true } ]

/-- Expected easy-bucket record for the example rounds. -/
def exampleEasyStats : RiskLevelStats :=
  { risk_level := "easy", total_rounds := 2, avg_multiplier := 1,
    success_rate := 50, big_win_rate := 0, avg_tiles_opened := 0,
    theoretical_rtp := 98 }

/-- Expected hard-bucket record for the example rounds. -/
def exampleHardStats : RiskLevelStats :=
  { risk_level := "hard", total_rounds := 1, avg_multiplier := 1,
    success_rate := 100, big_win_rate := 0, avg_tiles_opened := 0,
    theoretical_rtp := 96 }

/-- C4.  The risk comparison of the example rounds yields exactly the
easy bucket (2 rounds, 50 percent success) followed by the hard bucket
(1 round, 100 percent success) and nothing else; in general every
emitted bucket holds at least one round, so empty buckets never appear. -/
theorem risk_level_comparison_example :
    analyze_risk_levels exampleRiskRounds = [exampleEasyStats, exampleHardStats] ∧
    ∀ (rounds : List Round) (s : RiskLevelStats),
      s ∈ analyze_risk_levels rounds → 0 < s.total_rounds := by
  refine ⟨by decide, ?_⟩
  intro rounds s hs
  obtain ⟨level, -, hf⟩ := List.mem_filterMap.mp hs
  by_cases hd : (bucket rounds level).isEmpty
  · rw [if_pos hd] at hf
    exact absurd hf (by simp)
  · rw [if_neg hd] at hf
    obtain rfl := Option.some_injective _ hf
    have : bucket rounds level ≠ [] := by
      simpa [List.isEmpty_iff] using hd
    simpa [riskStats] using List.length_pos.mpr this

/-- Witness for C4: the easy bucket of the example is in the output and
has a positive round count. -/
theorem risk_level_comparison_example_witness :
    exampleEasyStats ∈ analyze_risk_levels exampleRiskRounds ∧
    0 < exampleEasyStats.total_rounds :=
  ⟨by decide, risk_level_comparison_example.2 exampleRiskRounds _ (by decide)⟩

/-- C5.  A round without a `risk_level` field lands in the medium bucket;
a round whose (lower-cased) risk label is outside the four canonical
buckets lands in no bucket of the risk comparison, yet every round is
counted in `total_rounds` of the tile analysis; both cases are handled
without raising. -/
theorem risk_level_default_and_unrecognized (rounds : List Round) (r : Round)
    (hr : r ∈ rounds) :
    (r.risk_level = none → r ∈ bucket rounds "medium") ∧
    (∀ s, r.risk_level = some s → s.toLower ∉ riskLabels →
      ∀ level ∈ riskLabels, r ∉ bucket rounds level) ∧
    (analyze_tiles rounds).total_rounds = rounds.length := by
  refine ⟨?_, ?_, ?_⟩
  · intro h
    refine List.mem_filter.mpr ⟨hr, ?_⟩
    rw [Round.riskLabel, h]
    decide
  · intro s hs hns level hlevel hmem
    have hlab : r.riskLabel = level := by
      simpa using (List.mem_filter.mp hmem).2
    rw [Round.riskLabel, hs] at hlab
    exact hns (hlab ▸ hlevel)
  · by_cases h : rounds.isEmpty
    · rw [analyze_tiles, if_pos h]
      simp [List.isEmpty_iff] at h
      simp [h]
    · rw [analyze_tiles, if_neg h]

/-- Witness for C5, on one absent-label round and one round labelled
with the unrecognized risk level "insane". -/
theorem risk_level_default_and_unrecognized_witness :
    (({} : Round) ∈ [({} : Round), { risk_level := some "insane" }] ∧
      ((({} : Round).risk_level = none →
        ({} : Round) ∈ bucket [({} : Round), { risk_level := some "insane" }] "medium") ∧
       (∀ s, ({} : Round).risk_level = some s → s.toLower ∉ riskLabels →
         ∀ level ∈ riskLabels,
           ({} : Round) ∉ bucket [({} : Round), { risk_level := some "insane" }] level) ∧
       (analyze_tiles [({} : Round), { risk_level := some "insane" }]).total_rounds =
         ([({} : Round), { risk_level := some "insane" }] : List Round).length)) ∧
    (({ risk_level := some "insane" } : Round) ∈
        [({} : Round), { risk_level := some "insane" }] ∧
      ((({ risk_level := some "insane" } : Round).risk_level = none →
        ({ risk_level := some "insane" } : Round) ∈
          bucket [({} : Round), { risk_level := some "insane" }] "medium") ∧
       (∀ s, ({ risk_level := some "insane" } : Round).risk_level = some s →
         s.toLower ∉ riskLabels →
         ∀ level ∈ riskLabels,
           ({ risk_level := some "insane" } : Round) ∉
             bucket [({} : Round), { risk_level := some "insane" }] level) ∧
       (analyze_tiles [({} : Round), { risk_level := some "insane" }]).total_rounds =
         ([({} : Round), { risk_level := some "insane" }] : List Round).length)) :=
  ⟨⟨by decide, risk_level_default_and_unrecognized _ _ (by decide)⟩,
   ⟨by decide, risk_level_default_and_unrecognized _ _ (by decide)⟩⟩

/-! ### Rounding error bounds -/

theorem abs_rdInt_sub_le (q : ℚ) : |((rdInt q : ℤ) : ℚ) - q| ≤ 1/2 := by
  have h0 : ((⌊q⌋ : ℤ) : ℚ) ≤ q := Int.floor_le q
  have h1 : q < ((⌊q⌋ : ℤ) : ℚ) + 1 := Int.lt_floor_add_one q
  rw [rdInt]
  split_ifs with ha hb hc
  · rw [abs_le]
    constructor <;> linarith
  · rw [abs_le]
    push_cast
    constructor <;> linarith
  · rw [abs_le]
    constructor <;> linarith
  · rw [abs_le]
    push_cast
    constructor <;> linarith

theorem abs_round2_sub_le (q : ℚ) : |round2 q - q| ≤ 1/200 := by
  have h := abs_rdInt_sub_le (q * 10 ^ 2)
  rw [round2, roundTo]
  have h100 : ((10 : ℚ) ^ 2) = 100 := by norm_num
  rw [h100] at h ⊢
  calc |((rdInt (q * 100) : ℤ) : ℚ) / 100 - q|
      = |(((rdInt (q * 100) : ℤ) : ℚ) - q * 100) / 100| := by ring_nf
    _ = |((rdInt (q * 100) : ℤ) : ℚ) - q * 100| / 100 := by
        rw [abs_div]
        norm_num
    _ ≤ (1/2) / 100 := by
        exact (div_le_div_iff_of_pos_right (by norm_num)).mpr h
    _ = 1/200 := by norm_num

/-! ### C8: cashout-pattern rates sum to 100 over successful rounds -/

theorem winTiles_eq (rounds : List Round) :
    winTiles rounds = (rounds.filter (·.isWinTA)).map (·.tiles) := by
  rw [winTiles, tilesOf, winFlags, List.zip_map', List.filter_map, List.map_map]
  rfl

theorem countP_tile_partition (l : List ℤ) :
    l.countP (fun t => decide (t ≤ 3)) +
      l.countP (fun t => decide (4 ≤ t) && decide (t ≤ 7)) +
      l.countP (fun t => decide (8 ≤ t)) = l.length := by
  induction l with
  | nil => rfl
  | cons t l ih =>
    simp only [List.countP_cons, List.length_cons, Bool.and_eq_true, decide_eq_true_eq]
    split_ifs <;> omega

theorem round2_zero : round2 0 = 0 := by decide

/-- C8.  For a non-empty round collection the three cashout rates sum to
100 up to the rounding error of three 2-decimal roundings whenever some
round succeeded, and are all exactly 0 when no round succeeded. -/
theorem cashout_rates_sum (rounds : List Round) (hne : rounds ≠ []) :
    ((∃ r ∈ rounds, r.isWinTA = true) →
      |(analyze_tiles rounds).early_cashout_rate +
        (analyze_tiles rounds).mid_cashout_rate +
        (analyze_tiles rounds).late_cashout_rate - 100| ≤ 3/200) ∧
    ((∀ r ∈ rounds, r.isWinTA = false) →
      (analyze_tiles rounds).early_cashout_rate = 0 ∧
      (analyze_tiles rounds).mid_cashout_rate = 0 ∧
      (analyze_tiles rounds).late_cashout_rate = 0) := by
  have hemp : rounds.isEmpty = false := by
    simp [List.isEmpty_iff, hne]
  have hproj : (analyze_tiles rounds).early_cashout_rate =
      round2 (if (winTiles rounds).isEmpty then 0 else
        (((winTiles rounds).countP (fun t => decide (t ≤ 3)) : ℚ) /
          (winTiles rounds).length) * 100) ∧
      (analyze_tiles rounds).mid_cashout_rate =
      round2 (if (winTiles rounds).isEmpty then 0 else
        (((winTiles rounds).countP (fun t => decide (4 ≤ t) && decide (t ≤ 7)) : ℚ) /
          (winTiles rounds).length) * 100) ∧
      (analyze_tiles rounds).late_cashout_rate =
      round2 (if (winTiles rounds).isEmpty then 0 else
        (((winTiles rounds).countP (fun t => decide (8 ≤ t)) : ℚ) /
          (winTiles rounds).length) * 100) := by
    rw [analyze_tiles, if_neg (by rw [hemp]; exact Bool.false_ne_true)]
    exact ⟨rfl, rfl, rfl⟩
  obtain ⟨he, hm, hl⟩ := hproj
  constructor
  · rintro ⟨r, hr, hw⟩
    have hwne : winTiles rounds ≠ [] := by
      rw [winTiles_eq]
      exact List.ne_nil_of_mem
        (List.mem_map_of_mem _ (List.mem_filter.mpr ⟨hr, hw⟩))
    have hwemp : (winTiles rounds).isEmpty = false := by
      simp [List.isEmpty_iff, hwne]
    rw [he, hm, hl, hwemp]
    simp only [Bool.false_eq_true, if_false]
    set w := winTiles rounds with hw'
    set L := w.length with hL
    have hLpos : 0 < L := List.length_pos.mpr hwne
    have hLne : (L : ℚ) ≠ 0 := Nat.cast_ne_zero.mpr hLpos.ne'
    set c1 := w.countP (fun t => decide (t ≤ 3)) with hc1
    set c2 := w.countP (fun t => decide (4 ≤ t) && decide (t ≤ 7)) with hc2
    set c3 := w.countP (fun t => decide (8 ≤ t)) with hc3
    have hcsum : (c1 : ℚ) + c2 + c3 = (L : ℚ) := by
      exact_mod_cast countP_tile_partition w
    have hsum : ((c1 : ℚ) / L) * 100 + ((c2 : ℚ) / L) * 100 + ((c3 : ℚ) / L) * 100 = 100 := by
      field_simp
      linarith
    have b1 := abs_round2_sub_le (((c1 : ℚ) / L) * 100)
    have b2 := abs_round2_sub_le (((c2 : ℚ) / L) * 100)
    have b3 := abs_round2_sub_le (((c3 : ℚ) / L) * 100)
    have hdecomp : round2 (((c1 : ℚ) / L) * 100) + round2 (((c2 : ℚ) / L) * 100) +
        round2 (((c3 : ℚ) / L) * 100) - 100 =
        (round2 (((c1 : ℚ) / L) * 100) - ((c1 : ℚ) / L) * 100) +
        (round2 (((c2 : ℚ) / L) * 100) - ((c2 : ℚ) / L) * 100) +
        (round2 (((c3 : ℚ) / L) * 100) - ((c3 : ℚ) / L) * 100) := by
      linarith
    rw [hdecomp]
    calc |(round2 (((c1 : ℚ) / L) * 100) - ((c1 : ℚ) / L) * 100) +
        (round2 (((c2 : ℚ) / L) * 100) - ((c2 : ℚ) / L) * 100) +
        (round2 (((c3 : ℚ) / L) * 100) - ((c3 : ℚ) / L) * 100)|
        ≤ |(round2 (((c1 : ℚ) / L) * 100) - ((c1 : ℚ) / L) * 100) +
          (round2 (((c2 : ℚ) / L) * 100) - ((c2 : ℚ) / L) * 100)| +
          |round2 (((c3 : ℚ) / L) * 100) - ((c3 : ℚ) / L) * 100| := abs_add _ _
      _ ≤ |round2 (((c1 : ℚ) / L) * 100) - ((c1 : ℚ) / L) * 100| +
          |round2 (((c2 : ℚ) / L) * 100) - ((c2 : ℚ) / L) * 100| +
          |round2 (((c3 : ℚ) / L) * 100) - ((c3 : ℚ) / L) * 100| := by
          have := abs_add (round2 (((c1 : ℚ) / L) * 100) - ((c1 : ℚ) / L) * 100)
            (round2 (((c2 : ℚ) / L) * 100) - ((c2 : ℚ) / L) * 100)
          linarith
      _ ≤ 1/200 + 1/200 + 1/200 := by linarith
      _ = 3/200 := by norm_num
  · intro hall
    have hwnil : winTiles rounds = [] := by
      rw [winTiles_eq]
      have hfil : rounds.filter (·.isWinTA) = [] := by
        rw [List.filter_eq_nil_iff]
        intro a ha
        simp [hall a ha]
      rw [hfil, List.map_nil]
    rw [he, hm, hl, hwnil]
    simp only [List.isEmpty_nil, if_true]
    exact ⟨round2_zero, round2_zero, round2_zero⟩

/-- One winning round, used by the C8 witness. -/
def winExampleRounds : List Round := [{ is_win := some true, tiles_opened := some 2 }]

/-- One losing round, used by the C8 witness. -/
def lossExampleRounds : List Round := [{ is_win := some false }]

/-- Witness for C8, on a one-win collection and a no-win collection. -/
theorem cashout_rates_sum_witness :
    (winExampleRounds ≠ [] ∧ (∃ r ∈ winExampleRounds, r.isWinTA = true) ∧
      |(analyze_tiles winExampleRounds).early_cashout_rate +
        (analyze_tiles winExampleRounds).mid_cashout_rate +
        (analyze_tiles winExampleRounds).late_cashout_rate - 100| ≤ 3/200) ∧
    (lossExampleRounds ≠ [] ∧ (∀ r ∈ lossExampleRounds, r.isWinTA = false) ∧
      ((analyze_tiles lossExampleRounds).early_cashout_rate = 0 ∧
       (analyze_tiles lossExampleRounds).mid_cashout_rate = 0 ∧
       (analyze_tiles lossExampleRounds).late_cashout_rate = 0)) :=
  ⟨⟨by decide, by decide, (cashout_rates_sum winExampleRounds (by decide)).1 (by decide)⟩,
   ⟨by decide, by decide, (cashout_rates_sum lossExampleRounds (by decide)).2 (by decide)⟩⟩

/-! ### C6: danger-lane scoring -/

/-- A round record with every field absent. -/
def blankRound : Round := { tiles_opened := none }

/-- A 100-round collection whose computed lane success rates for
`total_lanes = 4` are 90, 85, 40, 38. -/
def laneExampleRounds : List Round :=
  List.replicate 10 blankRound ++ List.replicate 5 { distance := some 1 } ++
    List.replicate 45 { distance := some 2 } ++ List.replicate 2 { distance := some 3 } ++
    List.replicate 38 { distance := some 4 }

set_option maxRecDepth 40000 in
/-- C6, counterexample.  On a collection realizing the claimed lane
success rates 90, 85, 40, 38 with `total_lanes = 4`, the most dangerous
lane is 3 as claimed, but the safest lane is 4 (drop 2), not 2
(drop 5). -/
theorem lane_safest_counterexample :
    (analyze_chicken_road_lanes laneExampleRounds 4).lane_success_rates =
      [(1, 90), (2, 85), (3, 40), (4, 38)] ∧
    (analyze_chicken_road_lanes laneExampleRounds 4).most_dangerous_lane = 3 ∧
    (analyze_chicken_road_lanes laneExampleRounds 4).safest_lane = 4 ∧
    ¬ (analyze_chicken_road_lanes laneExampleRounds 4).safest_lane = 2 := by
  refine ⟨by decide, by decide, by decide, by decide⟩

/-- C6, amended.  For any non-empty collection whose computed lane
success rates for lanes 1..4 are 90, 85, 40, 38, analysed with
`total_lanes = 4`: the most dangerous lane is 3 (the largest drop, 45)
and the safest lane is 4 (the smallest drop, 2). -/
theorem lane_danger_scoring_amended (rounds : List Round) (hne : rounds ≠ [])
    (h1 : laneRate rounds 1 = 90) (h2 : laneRate rounds 2 = 85)
    (h3 : laneRate rounds 3 = 40) (h4 : laneRate rounds 4 = 38) :
    (analyze_chicken_road_lanes rounds 4).most_dangerous_lane = 3 ∧
    (analyze_chicken_road_lanes rounds 4).safest_lane = 4 := by
  have hemp : rounds.isEmpty = false := by
    simp [List.isEmpty_iff, hne]
  have hd : dangerDrops rounds 4 = [(2, 5), (3, 45), (4, 2)] := by
    show (List.range' 2 3).map _ = _
    have hr : List.range' 2 3 = [2, 3, 4] := rfl
    rw [hr]
    simp only [List.map_cons, List.map_nil, laneRateD]
    norm_num [h1, h2, h3, h4]
  have hmain : analyze_chicken_road_lanes rounds 4 =
      { total_rounds := rounds.length
        avg_distance := round2 (mean ((distancesOf rounds).map (fun d => (d : ℚ))))
        max_distance := ((distancesOf rounds).max?).getD 0
        lane_success_rates := (List.range' 1 4).map (fun lane => (lane, laneRate rounds lane))
        most_dangerous_lane := match pyMaxBy (dangerDrops rounds 4) with
          | some p => p.1
          | none => 1
        safest_lane := match pyMinBy (dangerDrops rounds 4) with
          | some p => p.1
          | none => 1
        caught_early_rate := round2
          ((((distancesOf rounds).countP (fun d => decide (d ≤ 3)) : ℚ) /
            (distancesOf rounds).length) * 100)
        completed_rate := round2
          ((((distancesOf rounds).countP (fun d => decide ((4 : ℤ) ≤ d)) : ℚ) /
            (distancesOf rounds).length) * 100) } := by
    rw [analyze_chicken_road_lanes, if_neg (by rw [hemp]; exact Bool.false_ne_true)]
    rfl
  rw [hmain, hd]
  exact ⟨rfl, rfl⟩

set_option maxRecDepth 40000 in
/-- Witness for the amended C6 theorem, on the 100-round collection. -/
theorem lane_danger_scoring_amended_witness :
    laneExampleRounds ≠ [] ∧ laneRate laneExampleRounds 1 = 90 ∧
    laneRate laneExampleRounds 2 = 85 ∧ laneRate laneExampleRounds 3 = 40 ∧
    laneRate laneExampleRounds 4 = 38 ∧
    ((analyze_chicken_road_lanes laneExampleRounds 4).most_dangerous_lane = 3 ∧
     (analyze_chicken_road_lanes laneExampleRounds 4).safest_lane = 4) :=
  ⟨by decide, by decide, by decide, by decide, by decide,
   lane_danger_scoring_amended laneExampleRounds (by decide)
     (by decide) (by decide) (by decide) (by decide)⟩

/-! ### C7: Towers expected value and recommended stop floor -/

theorem maxFrom_eq_or_mem (b : ℕ × ℚ) (xs : List (ℕ × ℚ)) :
    maxFrom b xs = b ∨ maxFrom b xs ∈ xs := by
  induction xs generalizing b with
  | nil => exact Or.inl rfl
  | cons y ys ih =>
    rw [maxFrom]
    rcases ih (if b.2 < y.2 then y else b) with h | h
    · rw [h]
      by_cases hb : b.2 < y.2
      · rw [if_pos hb]
        exact Or.inr (List.mem_cons_self _ _)
      · rw [if_neg hb]
        exact Or.inl rfl
    · exact Or.inr (List.mem_cons_of_mem _ h)

theorem le_maxFrom (b : ℕ × ℚ) (xs : List (ℕ × ℚ)) : b.2 ≤ (maxFrom b xs).2 := by
  induction xs generalizing b with
  | nil => exact le_refl _
  | cons y ys ih =>
    rw [maxFrom]
    by_cases hb : b.2 < y.2
    · rw [if_pos hb]
      exact le_of_lt (lt_of_lt_of_le hb (ih y))
    · rw [if_neg hb]
      exact ih b

theorem mem_le_maxFrom (b : ℕ × ℚ) (xs : List (ℕ × ℚ)) :
    ∀ x ∈ xs, x.2 ≤ (maxFrom b xs).2 := by
  induction xs generalizing b with
  | nil => intro x hx; exact absurd hx (List.not_mem_nil x)
  | cons y ys ih =>
    intro x hx
    rw [maxFrom]
    rcases List.mem_cons.mp hx with rfl | hx2
    · by_cases hb : b.2 < x.2
      · rw [if_pos hb]
        exact le_maxFrom x ys
      · rw [if_neg hb]
        exact le_trans (le_of_not_lt hb) (le_maxFrom b ys)
    · by_cases hb : b.2 < y.2
      · rw [if_pos hb]
        exact ih y x hx2
      · rw [if_neg hb]
        exact ih b x hx2

theorem maxFrom_first (b : ℕ × ℚ) (xs : List (ℕ × ℚ))
    (hkey : ∀ x ∈ xs, b.1 < x.1)
    (hpair : xs.Pairwise (fun x y => x.1 < y.1)) :
    (b.1 < (maxFrom b xs).1 → b.2 < (maxFrom b xs).2) ∧
    (∀ x ∈ xs, x.1 < (maxFrom b xs).1 → x.2 < (maxFrom b xs).2) := by
  induction xs generalizing b with
  | nil =>
    constructor
    · intro h
      rw [maxFrom] at h
      exact absurd h (lt_irrefl _)
    · intro x hx
      exact absurd hx (List.not_mem_nil x)
  | cons y ys ih =>
    have hkey2 : ∀ x ∈ ys, (if b.2 < y.2 then y else b).1 < x.1 := by
      intro x hx
      by_cases hb : b.2 < y.2
      · rw [if_pos hb]
        exact (List.pairwise_cons.mp hpair).1 x hx
      · rw [if_neg hb]
        exact hkey x (List.mem_cons_of_mem _ hx)
    obtain ⟨IH1, IH2⟩ := ih (if b.2 < y.2 then y else b) hkey2 (List.pairwise_cons.mp hpair).2
    rw [maxFrom]
    constructor
    · intro hlt
      by_cases hb : b.2 < y.2
      · rw [if_pos hb] at hlt ⊢
        exact lt_of_lt_of_le hb (le_maxFrom y ys)
      · rw [if_neg hb] at IH1 hlt ⊢
        exact IH1 hlt
    · intro x hx hlt
      rcases List.mem_cons.mp hx with rfl | hx2
      · by_cases hb : b.2 < x.2
        · rw [if_pos hb] at IH1 hlt ⊢
          exact IH1 hlt
        · rw [if_neg hb] at IH1 hlt ⊢
          have hb1 : b.1 < x.1 := hkey x (List.mem_cons_self _ _)
          exact lt_of_le_of_lt (le_of_not_lt hb) (IH1 (lt_trans hb1 hlt))
      · by_cases hb : b.2 < y.2
        · rw [if_pos hb] at IH2 hlt ⊢
          exact IH2 x hx2 hlt
        · rw [if_neg hb] at IH2 hlt ⊢
          exact IH2 x hx2 hlt

/-- Python `max` with a value key over `(key, value)` pairs built from
floors `1 .. n` returns the first (lowest-keyed) pair attaining the
maximal value. -/
theorem pyMaxBy_range_first_argmax (v : ℕ → ℚ) (n : ℕ) (hn : 1 ≤ n) :
    ∃ p : ℕ × ℚ,
      pyMaxBy ((List.range' 1 n).map (fun k => (k, v k))) = some p ∧
      p.2 = v p.1 ∧ 1 ≤ p.1 ∧ p.1 ≤ n ∧
      (∀ f, 1 ≤ f → f ≤ n → v f ≤ v p.1) ∧
      (∀ f, 1 ≤ f → f < p.1 → v f < v p.1) := by
  obtain ⟨m, rfl⟩ : ∃ m, n = m + 1 := ⟨n - 1, by omega⟩
  rw [List.range'_succ, List.map_cons]
  set b : ℕ × ℚ := (1, v 1) with hbdef
  set xs : List (ℕ × ℚ) := (List.range' 2 m).map (fun k => (k, v k)) with hxsdef
  have hkey : ∀ x ∈ xs, b.1 < x.1 := by
    intro x hx
    obtain ⟨k, hk, rfl⟩ := List.mem_map.mp hx
    have h2 := (List.mem_range'_1.mp hk).1
    show 1 < k
    omega
  have hpair : xs.Pairwise (fun x y => x.1 < y.1) := by
    rw [hxsdef, List.pairwise_map]
    exact List.pairwise_lt_range' 2 m 1 (by norm_num)
  have hval : ∀ x, (x = b ∨ x ∈ xs) → x.2 = v x.1 := by
    rintro x (rfl | hx)
    · rfl
    · obtain ⟨k, hk, rfl⟩ := List.mem_map.mp hx
      rfl
  have hbound : ∀ x, (x = b ∨ x ∈ xs) → 1 ≤ x.1 ∧ x.1 ≤ m + 1 := by
    rintro x (rfl | hx)
    · exact ⟨le_refl _, Nat.le_add_left 1 m⟩
    · obtain ⟨k, hk, rfl⟩ := List.mem_map.mp hx
      have h2 := List.mem_range'_1.mp hk
      exact ⟨by omega, by omega⟩
  obtain ⟨H1, H2⟩ := maxFrom_first b xs hkey hpair
  refine ⟨maxFrom b xs, rfl, hval _ (maxFrom_eq_or_mem b xs),
    (hbound _ (maxFrom_eq_or_mem b xs)).1, (hbound _ (maxFrom_eq_or_mem b xs)).2, ?_, ?_⟩
  · intro f h1 h2
    rcases Nat.lt_or_ge f 2 with hf | hf
    · have hf1 : f = 1 := by omega
      subst hf1
      have := le_maxFrom b xs
      rw [hval _ (maxFrom_eq_or_mem b xs)] at this
      exact this
    · have hmem : (f, v f) ∈ xs := by
        rw [hxsdef]
        exact List.mem_map_of_mem _ (List.mem_range'_1.mpr ⟨hf, by omega⟩)
      have := mem_le_maxFrom b xs _ hmem
      rw [hval _ (maxFrom_eq_or_mem b xs)] at this
      exact this
  · intro f h1 hlt
    rcases Nat.lt_or_ge f 2 with hf | hf
    · have hf1 : f = 1 := by omega
      subst hf1
      have hbr : b.1 < (maxFrom b xs).1 := hlt
      have := H1 hbr
      rw [hval _ (maxFrom_eq_or_mem b xs)] at this
      exact this
    · have hmem : (f, v f) ∈ xs := by
        rw [hxsdef]
        refine List.mem_map_of_mem _ (List.mem_range'_1.mpr ⟨hf, ?_⟩)
        have := (hbound _ (maxFrom_eq_or_mem b xs)).2
        omega
      have := H2 _ hmem hlt
      rw [hval _ (maxFrom_eq_or_mem b xs)] at this
      exact this

theorem evListAux_eq (rates : ℕ → ℚ) (n : ℕ) :
    ∀ (f : ℕ) (bm : ℚ), evListAux rates n f bm =
      (List.range' f n).map
        (fun k => (k, round4 ((rates k / 100) * (bm * (3/2) ^ (k + 1 - f))))) := by
  induction n with
  | zero => intro f bm; rfl
  | succ n ih =>
    intro f bm
    rw [evListAux, List.range'_succ, List.map_cons]
    congr 1
    · have hf : f + 1 - f = 1 := by omega
      rw [hf, pow_one]
    · rw [ih (f + 1) (bm * (3/2))]
      apply List.map_congr_left
      intro k hk
      have hk2 : f + 1 ≤ k := (List.mem_range'_1.mp hk).1
      have e1 : k + 1 - (f + 1) = k - f := by omega
      have e2 : k + 1 - f = (k - f) + 1 := by omega
      rw [e1, e2, pow_succ]
      exact congrArg (fun q => (k, round4 (rates k / 100 * q))) (by ring)

theorem evList_eq (rates : ℕ → ℚ) (n : ℕ) :
    evList rates n =
      (List.range' 1 n).map (fun k => (k, round4 ((rates k / 100) * (3/2) ^ k))) := by
  rw [evList, evListAux_eq rates n 1 1]
  apply List.map_congr_left
  intro k hk
  have e : k + 1 - 1 = k := by omega
  rw [e, one_mul]

/-- The `ev_per_floor[f]` value of `analyze_towers_floors`. -/
def evValue (rounds : List Round) (max_floors f : ℕ) : ℚ :=
  round4 ((floorRateD rounds max_floors f / 100) * ((3 : ℚ)/2) ^ f)

/-- C7.  For a non-empty round collection and at least one floor: the
expected-value table assigns floor `f` the value
`round4(floorSuccessRate[f]/100 × 1.5^f)` (the 1.5 factor compounds from
floor 1), and the recommended stop floor is the lowest-indexed floor
attaining the maximum of that sequence; on an empty collection the
recommended stop floor defaults to 3. -/
theorem towers_expected_value_and_stop (rounds : List Round) (max_floors : ℕ)
    (hne : rounds ≠ []) (hmf : 1 ≤ max_floors) :
    ((analyze_towers_floors rounds max_floors).expected_value_per_floor =
      (List.range' 1 max_floors).map (fun f => (f, evValue rounds max_floors f))) ∧
    (∀ f, 1 ≤ f → f ≤ max_floors →
      evValue rounds max_floors f =
        round4 ((floorRate rounds f / 100) * ((3 : ℚ)/2) ^ f)) ∧
    (1 ≤ (analyze_towers_floors rounds max_floors).recommended_stop_floor ∧
     (analyze_towers_floors rounds max_floors).recommended_stop_floor ≤ max_floors ∧
     (∀ f, 1 ≤ f → f ≤ max_floors →
       evValue rounds max_floors f ≤ evValue rounds max_floors
         ((analyze_towers_floors rounds max_floors).recommended_stop_floor)) ∧
     (∀ f, 1 ≤ f → f < (analyze_towers_floors rounds max_floors).recommended_stop_floor →
       evValue rounds max_floors f < evValue rounds max_floors
         ((analyze_towers_floors rounds max_floors).recommended_stop_floor))) ∧
    (analyze_towers_floors [] max_floors).recommended_stop_floor = 3 := by
  have hemp : rounds.isEmpty = false := by
    simp [List.isEmpty_iff, hne]
  have hev : (analyze_towers_floors rounds max_floors).expected_value_per_floor =
      evList (floorRateD rounds max_floors) max_floors := by
    rw [analyze_towers_floors, if_neg (by rw [hemp]; exact Bool.false_ne_true)]
  have hrec : (analyze_towers_floors rounds max_floors).recommended_stop_floor =
      (match pyMaxBy (evList (floorRateD rounds max_floors) max_floors) with
        | some p => p.1
        | none => 3) := by
    rw [analyze_towers_floors, if_neg (by rw [hemp]; exact Bool.false_ne_true)]
  have hlist : evList (floorRateD rounds max_floors) max_floors =
      (List.range' 1 max_floors).map (fun k => (k, evValue rounds max_floors k)) :=
    evList_eq _ _
  obtain ⟨p, hp, hpv, hp1, hp2, hmax, hfirst⟩ :=
    pyMaxBy_range_first_argmax (fun k => evValue rounds max_floors k) max_floors hmf
  rw [hlist, hp] at hrec
  refine ⟨by rw [hev, hlist], ?_, ?_, rfl⟩
  · intro f h1 h2
    rw [evValue, floorRateD, if_pos ⟨h1, h2⟩]
  · rw [hrec]
    exact ⟨hp1, hp2, hmax, hfirst⟩

/-- Two rounds used by the C7 witness. -/
def towersExampleRounds : List Round := [{ steps := some 2 }, { steps := some 5 }]

/-- Witness for C7, on a concrete two-round collection with three
floors. -/
theorem towers_expected_value_and_stop_witness :
    ((analyze_towers_floors towersExampleRounds 3).expected_value_per_floor =
      (List.range' 1 3).map (fun f => (f, evValue towersExampleRounds 3 f))) ∧
    1 ≤ (analyze_towers_floors towersExampleRounds 3).recommended_stop_floor ∧
    (analyze_towers_floors [] 3).recommended_stop_floor = 3 := by
  have h := towers_expected_value_and_stop towersExampleRounds 3 (by decide) (by decide)
  exact ⟨h.1, h.2.2.1.1, h.2.2.2⟩

/-- C9.  Tile analysis of the empty round collection returns the
all-zero object with `total_rounds = 0`, raising nothing. -/
theorem tile_analysis_empty :
    analyze_tiles [] =
      { total_rounds := 0, avg_tiles_opened := 0, avg_multiplier := 0
        median_tiles := 0, max_tiles_opened := 0, early_cashout_rate := 0
        mid_cashout_rate := 0, late_cashout_rate := 0
        first_tile_fail_rate := 0, avg_tiles_before_fail := 0 } := rfl

/-! ### C10: position-heatmap range safety -/

/-- A round with its hazard positions restricted to the grid `[0, G)`. -/
def restrictRound (G : ℕ) (r : Round) : Round :=
  { r with mine_positions := r.mine_positions.filter (inGrid G) }

theorem allMines_restrict (rounds : List Round) (G : ℕ) :
    allMines (rounds.map (restrictRound G)) = (allMines rounds).filter (inGrid G) := by
  induction rounds with
  | nil => rfl
  | cons r rs ih =>
    simp only [allMines, List.map_cons, List.flatMap_cons]
    rw [List.filter_append]
    congr 1

theorem posCount_restrict (rounds : List Round) (G i : ℕ) (hi : i < G) :
    posCount (rounds.map (restrictRound G)) i = posCount rounds i := by
  rw [posCount, posCount, allMines_restrict, List.countP_filter]
  congr 1
  funext p
  by_cases hp : p = (i : ℤ)
  · subst hp
    simp only [beq_self_eq_true, Bool.true_and, inGrid, Bool.and_eq_true, decide_eq_true_eq]
    omega
  · simp [hp]

theorem totalMines_restrict (rounds : List Round) (G : ℕ) :
    totalMines (rounds.map (restrictRound G)) G = totalMines rounds G := by
  rw [totalMines, totalMines, allMines_restrict, List.countP_filter]
  congr 1
  funext p
  exact Bool.and_self _

theorem countP_grid_sum (l : List ℤ) (G : ℕ) :
    l.countP (inGrid G) = ∑ i in Finset.range G, l.countP (fun p => p == (i : ℤ)) := by
  induction l with
  | nil => simp
  | cons p l ih =>
    rw [List.countP_cons, ih]
    have hswap : ∑ i in Finset.range G, List.countP (fun q => q == ((i : ℕ) : ℤ)) (p :: l) =
        ∑ i in Finset.range G, (List.countP (fun q => q == ((i : ℕ) : ℤ)) l +
          if (p == ((i : ℕ) : ℤ)) = true then 1 else 0) :=
      Finset.sum_congr rfl (fun i _ => List.countP_cons _ p l)
    rw [hswap, Finset.sum_add_distrib]
    congr 1
    by_cases hp : inGrid G p = true
    · rw [if_pos hp]
      have h0 : 0 ≤ p ∧ p < (G : ℤ) := by
        simpa [inGrid, Bool.and_eq_true, decide_eq_true_eq] using hp
      have hpj : p = ((p.toNat : ℕ) : ℤ) := (Int.toNat_of_nonneg h0.1).symm
      have hj : p.toNat < G := by omega
      have hz : ∀ b ∈ Finset.range G, b ≠ p.toNat →
          (if (p == (b : ℤ)) = true then 1 else 0) = 0 := by
        intro b hb hbne
        rw [if_neg]
        intro hcon
        have hpb : p = (b : ℤ) := eq_of_beq hcon
        omega
      rw [Finset.sum_eq_single_of_mem p.toNat (Finset.mem_range.mpr hj) hz,
        if_pos (beq_iff_eq.mpr hpj)]
    · rw [if_neg hp]
      symm
      apply Finset.sum_eq_zero
      intro i hi
      rw [if_neg]
      intro hcon
      have hpi : p = (i : ℤ) := eq_of_beq hcon
      apply hp
      have hiG := Finset.mem_range.mp hi
      subst hpi
      simp only [inGrid, Bool.and_eq_true, decide_eq_true_eq]
      omega

theorem analyze_mine_positions_restrict (rounds : List Round) (G : ℕ) (hG : 25 ≤ G) :
    analyze_mine_positions (rounds.map (restrictRound G)) G =
      analyze_mine_positions rounds G := by
  have htot := totalMines_restrict rounds G
  have hcnt : ∀ i, i < G → posCount (rounds.map (restrictRound G)) i = posCount rounds i :=
    fun i hi => posCount_restrict rounds G i hi
  have hsort : sortedPositions (rounds.map (restrictRound G)) G = sortedPositions rounds G := by
    rw [sortedPositions, sortedPositions]
    congr 1
    apply List.map_congr_left
    intro i hi
    rw [hcnt i (List.mem_range.mp hi)]
  have hcells : ∀ (cells : List ℕ), (∀ c ∈ cells, c < 25) →
      cells.map (posCount (rounds.map (restrictRound G))) = cells.map (posCount rounds) := by
    intro cells hcells
    apply List.map_congr_left
    intro c hc
    exact hcnt c (lt_of_lt_of_le (hcells c hc) hG)
  have hfreq : (List.range G).map (fun i =>
        (i, if 0 < totalMines rounds G then
          round2 (((posCount (rounds.map (restrictRound G)) i : ℚ) /
            totalMines rounds G) * 100) else 0)) =
      (List.range G).map (fun i =>
        (i, if 0 < totalMines rounds G then
          round2 (((posCount rounds i : ℚ) / totalMines rounds G) * 100) else 0)) := by
    apply List.map_congr_left
    intro i hi
    rw [hcnt i (List.mem_range.mp hi)]
  rw [analyze_mine_positions, analyze_mine_positions, htot, hsort, hfreq,
    hcells cornerCells (by decide), hcells edgeCells (by decide),
    hcells centerCells (by decide)]

/-- C10, counterexample.  With grid size 5 (which is at least 1) and a
single in-grid hazard, the heatmap computation raises `KeyError` while
reading the fixed 5×5 category cells, instead of completing. -/
theorem heatmap_small_grid_error :
    analyze_mine_positions [{ mine_positions := [2] }] 5 = Except.error "KeyError" := rfl

/-- C10, amended.  For every round collection and grid size `G ≥ 25`
(the fixed category cells all exist): hazard positions outside `[0, G)`
contribute to no per-cell count and not to `mine_count_analyzed`
(restricting every round to in-grid positions leaves the result
unchanged), the computation completes without error, and
`mine_count_analyzed` equals the sum of the per-cell counts. -/
theorem heatmap_range_safety_amended (rounds : List Round) (G : ℕ) (hG : 25 ≤ G) :
    analyze_mine_positions (rounds.map (restrictRound G)) G =
      analyze_mine_positions rounds G ∧
    ∃ hm : PositionHeatmap, analyze_mine_positions rounds G = Except.ok hm ∧
      hm.mine_count_analyzed = ∑ i in Finset.range G, posCount rounds i := by
  refine ⟨analyze_mine_positions_restrict rounds G hG, ?_⟩
  have hcond : ¬ (0 < totalMines rounds G ∧ G < 25) := fun h => by omega
  rw [analyze_mine_positions, if_neg hcond]
  exact ⟨_, rfl, countP_grid_sum (allMines rounds) G⟩

/-- The single round used by the C10 witness: one in-grid hazard and two
out-of-grid hazards. -/
def heatmapExampleRounds : List Round := [{ mine_positions := [2, -1, 30] }]

/-- Witness for the amended C10 theorem, at grid size 25. -/
theorem heatmap_range_safety_amended_witness :
    25 ≤ 25 ∧
    (analyze_mine_positions (heatmapExampleRounds.map (restrictRound 25)) 25 =
      analyze_mine_positions heatmapExampleRounds 25 ∧
    ∃ hm : PositionHeatmap, analyze_mine_positions heatmapExampleRounds 25 = Except.ok hm ∧
      hm.mine_count_analyzed = ∑ i in Finset.range 25, posCount heatmapExampleRounds i) :=
  ⟨by decide, heatmap_range_safety_amended heatmapExampleRounds 25 (by decide)⟩

end MinesTracker
